import Mathlib

/-!
Verification of the aquarium-search application against its specification.

The development shallowly embeds the two source programs
(src/python/app.py and src/persistence/motherduck/app.py):

* the search/filter engine (the reactive calc named filtered_data), which
  pandas implements as a case-insensitive regular-expression search over 8
  text columns (Series.str.contains with its default regex interpretation,
  na=False for missing values);
* the featured-animals selection, the dataset loaders and their fallbacks;
* sanitize_id, the derivation of UI button identifiers from animal names;
* the ratings store (initialize_ratings_table, save_rating_to_duckdb,
  get_ratings_summary, save_rating with its CSV fallback) and the
  per-session rating observer logic of create_rating_observer.

Text is modelled at the ASCII level: pyLowerChar models Python str.lower on
ASCII letters, which covers every string the theorems evaluate.  The regex
fragment modelled (the one pandas hands to re.search) covers literal
characters, the dot wildcard, the postfix operators star, plus and question
mark, grouping parentheses, alternation and escapes of punctuation; other
constructs (character classes, anchors, repetition braces, escape classes)
are outside the modelled fragment and are rejected by the embedded parser.
Every theorem only evaluates patterns inside the fragment.
-/

namespace Aquarium

/-! ### Python string lowering (ASCII fragment of str.lower) -/

/-- Python str.lower restricted to ASCII: uppercase letters map to their
lowercase counterparts and every other character is unchanged. -/
def pyLowerChar (c : Char) : Char :=
  match c with
  | 'A' => 'a' | 'B' => 'b' | 'C' => 'c' | 'D' => 'd' | 'E' => 'e' | 'F' => 'f'
  | 'G' => 'g' | 'H' => 'h' | 'I' => 'i' | 'J' => 'j' | 'K' => 'k' | 'L' => 'l'
  | 'M' => 'm' | 'N' => 'n' | 'O' => 'o' | 'P' => 'p' | 'Q' => 'q' | 'R' => 'r'
  | 'S' => 's' | 'T' => 't' | 'U' => 'u' | 'V' => 'v' | 'W' => 'w' | 'X' => 'x'
  | 'Y' => 'y' | 'Z' => 'z'
  | other => other

/-- Lowercase a character list (model of str.lower on ASCII text). -/
def pyLower (s : List Char) : List Char :=
  s.map pyLowerChar

/-! ### Regular expressions as pandas Series.str.contains interprets queries

pandas Series.str.contains(pat, na=False) treats pat as a regular
expression by default and reports whether re.search(pat, value) finds a
match; missing (NaN) values report False.  The filter of both apps passes
the raw lowercased user query as pat, so the query is interpreted as a
regex, not as a literal substring. -/

/-- Syntax of the modelled regex fragment. -/
inductive Regex where
  | fail : Regex
  | eps : Regex
  | char (c : Char) : Regex
  | dot : Regex
  | alt (r1 r2 : Regex) : Regex
  | cat (r1 r2 : Regex) : Regex
  | star (r : Regex) : Regex
deriving Repr, DecidableEq

/-- Does the regex accept the empty string? -/
def Regex.nullable : Regex → Bool
  | .fail => false
  | .eps => true
  | .char _ => false
  | .dot => false
  | .alt r1 r2 => r1.nullable || r2.nullable
  | .cat r1 r2 => r1.nullable && r2.nullable
  | .star _ => true

/-- Brzozowski derivative of a regex by one character. -/
def Regex.deriv : Regex → Char → Regex
  | .fail, _ => .fail
  | .eps, _ => .fail
  | .char d, c => if c = d then .eps else .fail
  | .dot, _ => .eps
  | .alt r1 r2, c => .alt (r1.deriv c) (r2.deriv c)
  | .cat r1 r2, c =>
      if r1.nullable then .alt (.cat (r1.deriv c) r2) (r2.deriv c)
      else .cat (r1.deriv c) r2
  | .star r, c => .cat (r.deriv c) (.star r)

/-- Does some prefix of the input match the regex? -/
def matchPre (r : Regex) : List Char → Bool
  | [] => r.nullable
  | c :: cs => r.nullable || matchPre (r.deriv c) cs

/-- Model of Python re.search as a Boolean: does the regex match somewhere
inside the input? -/
def reSearch (r : Regex) : List Char → Bool
  | [] => r.nullable
  | c :: cs => matchPre r (c :: cs) || reSearch r cs

/-- Characters that Python re treats as special (metacharacters). -/
def isMeta (c : Char) : Bool :=
  c = '.' || c = '^' || c = '$' || c = '*' || c = '+' || c = '?' ||
  c = '(' || c = ')' || c = '[' || c = ']' || c = '|' || c = '\\' ||
  c = Char.ofNat 123 || c = Char.ofNat 125

mutual

/-- Parse an alternation (seq possibly followed by a bar and another
alternation).  Fuel-indexed recursive descent; running out of fuel or
hitting an unsupported construct gives none (pattern rejected). -/
def parseAlt (fuel : Nat) (cs : List Char) : Option (Regex × List Char) :=
  match fuel with
  | 0 => none
  | fuel + 1 =>
    match parseCat fuel cs with
    | none => none
    | some (r1, rest) =>
      match rest with
      | '|' :: rest2 =>
        match parseAlt fuel rest2 with
        | none => none
        | some (r2, rest3) => some (.alt r1 r2, rest3)
      | _ => some (r1, rest)

/-- Parse a (possibly empty) sequence of terms, stopping at a bar, a
closing parenthesis or the end of input. -/
def parseCat (fuel : Nat) (cs : List Char) : Option (Regex × List Char) :=
  match fuel with
  | 0 => none
  | fuel + 1 =>
    match cs with
    | [] => some (.eps, [])
    | c :: cs' =>
      if c = '|' ∨ c = ')' then some (.eps, c :: cs')
      else
        match parseTerm fuel (c :: cs') with
        | none => none
        | some (r1, rest1) =>
          match parseCat fuel rest1 with
          | none => none
          | some (r2, rest2) => some (.cat r1 r2, rest2)

/-- Parse one atom together with an optional postfix operator. -/
def parseTerm (fuel : Nat) (cs : List Char) : Option (Regex × List Char) :=
  match fuel with
  | 0 => none
  | fuel + 1 =>
    match parseAtom fuel cs with
    | none => none
    | some (r, rest) =>
      match rest with
      | '*' :: rest2 => some (.star r, rest2)
      | '+' :: rest2 => some (.cat r (.star r), rest2)
      | '?' :: rest2 => some (.alt r .eps, rest2)
      | _ => some (r, rest)

/-- Parse an atom: a literal character, the dot wildcard, a parenthesised
group, or an escaped punctuation character.  Metacharacters that would
begin an unsupported construct are rejected. -/
def parseAtom (fuel : Nat) (cs : List Char) : Option (Regex × List Char) :=
  match fuel with
  | 0 => none
  | fuel + 1 =>
    match cs with
    | [] => none
    | c :: cs' =>
      if c = '.' then some (.dot, cs')
      else if c = '(' then
        match parseAlt fuel cs' with
        | some (r, d :: rest) => if d = ')' then some (r, rest) else none
        | _ => none
      else if c = '\\' then
        match cs' with
        | d :: rest => if d.isAlphanum then none else some (.char d, rest)
        | [] => none
      else if isMeta c then none
      else some (.char c, cs')

end

/-- Parse a whole pattern; the fuel is generous enough for any pattern of
the given length, and leftover input (for example an unmatched closing
parenthesis) makes the pattern invalid, as it does in Python. -/
def parseRegex (cs : List Char) : Option Regex :=
  match parseAlt (cs.length * 4 + 4) cs with
  | some (r, []) => some r
  | _ => none

/-! ### The substring semantics the specification describes -/

/-- Is the first list a prefix of the second (Boolean, by character
comparison)? -/
def isPreOf : List Char → List Char → Bool
  | [], _ => true
  | _ :: _, [] => false
  | c :: q, d :: s => c = d && isPreOf q s

/-- Is the first list a contiguous substring of the second?  This is the
semantics of the Python expression q in s on strings, the matching policy
the specification states for the search engine. -/
def substrOf : List Char → List Char → Bool
  | q, [] => q.isEmpty
  | q, d :: s => isPreOf q (d :: s) || substrOf q s

/-- The regex denoting exactly the literal character sequence q. -/
def litRegex : List Char → Regex
  | [] => .eps
  | c :: cs => .cat (.char c) (litRegex cs)

theorem matchPre_fail (s : List Char) : matchPre .fail s = false := by
  induction s <;> simp [matchPre, Regex.deriv, Regex.nullable, *]

theorem matchPre_cat_fail (r : Regex) (s : List Char) :
    matchPre (.cat .fail r) s = false := by
  induction s generalizing r with
  | nil => simp [matchPre, Regex.nullable]
  | cons c cs ih => simp [matchPre, Regex.nullable, Regex.deriv, ih]

theorem matchPre_alt (r1 r2 : Regex) (s : List Char) :
    matchPre (.alt r1 r2) s = (matchPre r1 s || matchPre r2 s) := by
  induction s generalizing r1 r2 with
  | nil => simp [matchPre, Regex.nullable]
  | cons c cs ih =>
    simp only [matchPre, Regex.nullable, Regex.deriv, ih]
    simp [Bool.or_assoc, Bool.or_comm, Bool.or_left_comm]

theorem matchPre_cat_eps (r : Regex) (s : List Char) :
    matchPre (.cat .eps r) s = matchPre r s := by
  cases s with
  | nil => simp [matchPre, Regex.nullable]
  | cons c cs =>
    simp [matchPre, Regex.nullable, Regex.deriv, matchPre_alt, matchPre_cat_fail]

theorem matchPre_lit (q : List Char) : ∀ s : List Char,
    matchPre (litRegex q) s = isPreOf q s := by
  induction q with
  | nil =>
    intro s
    cases s <;> simp [litRegex, matchPre, Regex.nullable, isPreOf]
  | cons c q ih =>
    intro s
    cases s with
    | nil => simp [litRegex, matchPre, Regex.nullable, isPreOf]
    | cons d s' =>
      simp only [litRegex, matchPre, Regex.nullable, Regex.deriv, isPreOf,
        Bool.false_and, Bool.false_or, ite_false]
      by_cases h : d = c
      · subst h
        simp [matchPre_cat_eps, ih]
      · have h' : ¬(c = d) := fun hcd => h hcd.symm
        simp [h, h', matchPre_cat_fail]

theorem reSearch_lit (q : List Char) : ∀ s : List Char,
    reSearch (litRegex q) s = substrOf q s := by
  intro s
  induction s with
  | nil => cases q <;> simp [reSearch, substrOf, litRegex, Regex.nullable, List.isEmpty]
  | cons c cs ih => simp [reSearch, substrOf, matchPre_lit, ih]

theorem parseAtom_lit (fuel : Nat) (c : Char) (cs : List Char)
    (hc : isMeta c = false) :
    parseAtom (fuel + 1) (c :: cs) = some (.char c, cs) := by
  have h1 : c ≠ '.' := by intro h; subst h; simp [isMeta] at hc
  have h2 : c ≠ '(' := by intro h; subst h; simp [isMeta] at hc
  have h3 : c ≠ '\\' := by intro h; subst h; simp [isMeta] at hc
  simp [parseAtom, h1, h2, h3, hc]

theorem parseTerm_lit (fuel : Nat) (c : Char) (cs : List Char)
    (hc : isMeta c = false) (hcs : ∀ d ∈ cs, isMeta d = false) :
    parseTerm (fuel + 2) (c :: cs) = some (.char c, cs) := by
  have ha := parseAtom_lit fuel c cs hc
  simp only [parseTerm, ha]
  cases cs with
  | nil => rfl
  | cons d cs' =>
    have hd : isMeta d = false := hcs d (by simp)
    have h1 : d ≠ '*' := by intro h; subst h; simp [isMeta] at hd
    have h2 : d ≠ '+' := by intro h; subst h; simp [isMeta] at hd
    have h3 : d ≠ '?' := by intro h; subst h; simp [isMeta] at hd
    split <;> simp_all

theorem parseCat_cons (fuel : Nat) (c : Char) (cs : List Char)
    (h : ¬(c = '|' ∨ c = ')')) :
    parseCat (fuel + 1) (c :: cs) =
      match parseTerm fuel (c :: cs) with
      | none => none
      | some (r1, rest1) =>
        match parseCat fuel rest1 with
        | none => none
        | some (r2, rest2) => some (.cat r1 r2, rest2) := by
  simp [parseCat, h]

theorem parseCat_lit (cs : List Char) : ∀ fuel : Nat,
    (∀ c ∈ cs, isMeta c = false) → cs.length + 2 ≤ fuel →
    parseCat fuel cs = some (litRegex cs, []) := by
  induction cs with
  | nil =>
    intro fuel _ hfuel
    obtain ⟨f, rfl⟩ : ∃ f, fuel = f + 1 := ⟨fuel - 1, by omega⟩
    simp [parseCat, litRegex]
  | cons c cs' ih =>
    intro fuel hlit hfuel
    obtain ⟨f, rfl⟩ : ∃ f, fuel = f + 3 := ⟨fuel - 3, by simp at hfuel; omega⟩
    have hc : isMeta c = false := hlit c (by simp)
    have hcs' : ∀ d ∈ cs', isMeta d = false := fun d hd => hlit d (by simp [hd])
    have h1 : c ≠ '|' := by intro h; subst h; simp [isMeta] at hc
    have h2 : c ≠ ')' := by intro h; subst h; simp [isMeta] at hc
    have hterm := parseTerm_lit f c cs' hc hcs'
    have hcat : parseCat (f + 2) cs' = some (litRegex cs', []) := by
      apply ih (f + 2) hcs'
      simp at hfuel
      omega
    rw [parseCat_cons (f + 2) c cs' (by simp [h1, h2]), hterm]
    dsimp only
    rw [hcat]
    simp [litRegex]

theorem parseAlt_lit (cs : List Char) (fuel : Nat)
    (hlit : ∀ c ∈ cs, isMeta c = false) (hfuel : cs.length + 3 ≤ fuel) :
    parseAlt fuel cs = some (litRegex cs, []) := by
  obtain ⟨f, rfl⟩ : ∃ f, fuel = f + 1 := ⟨fuel - 1, by omega⟩
  have hcat : parseCat f cs = some (litRegex cs, []) := parseCat_lit cs f hlit (by omega)
  simp [parseAlt, hcat]

/-- A pattern made only of non-metacharacters parses to the literal regex
denoting exactly itself. -/
theorem parseRegex_lit (cs : List Char) (hlit : ∀ c ∈ cs, isMeta c = false) :
    parseRegex cs = some (litRegex cs) := by
  unfold parseRegex
  rw [parseAlt_lit cs (cs.length * 4 + 4) hlit (by omega)]

theorem isMeta_pyLowerChar (c : Char) (h : isMeta c = false) :
    isMeta (pyLowerChar c) = false := by
  unfold pyLowerChar
  split <;> first | rfl | exact h

theorem pyLower_lit (q : List Char) (h : ∀ c ∈ q, isMeta c = false) :
    ∀ c ∈ pyLower q, isMeta c = false := by
  intro c hc
  simp only [pyLower, List.mem_map] at hc
  obtain ⟨d, hd, rfl⟩ := hc
  exact isMeta_pyLowerChar d (h d hd)

/-! ### The dataset and the search/filter engine -/

/-- One row of the aquarium table.  A field holding none models a
missing/NaN value in the loaded CSV; the size column is absent from some
datasets, so it defaults to none. -/
structure AnimalRecord where
  name : Option String
  scientific_name : Option String
  diet : Option String
  habitat : Option String
  range : Option String
  physical_characteristics : Option String
  fun_fact : Option String
  conservation_status : Option String
  image_url : Option String
  url : Option String
  size : Option String := none
deriving Repr, DecidableEq

/-- Model of column.str.lower().str.contains(pat, na=False) on one cell:
a missing value never matches, and a present value is lowercased and
searched with the pattern as a regular expression. -/
def cellContains (r : Regex) (field : Option String) : Bool :=
  match field with
  | none => false
  | some v => reSearch r (pyLower v.toList)

/-- The row mask of filtered_data: the disjunction of the 8 per-column
containment tests, in source order. -/
def rowMask (r : Regex) (a : AnimalRecord) : Bool :=
  cellContains r a.name ||
  cellContains r a.scientific_name ||
  cellContains r a.diet ||
  cellContains r a.habitat ||
  cellContains r a.range ||
  cellContains r a.physical_characteristics ||
  cellContains r a.fun_fact ||
  cellContains r a.conservation_status

/-- Failure mode of the filter: pandas raises if the query is not a valid
regular expression (or uses a construct outside the modelled fragment). -/
inductive FilterError where
  | invalidRegex
deriving Repr, DecidableEq

/-- The reactive calc filtered_data of both apps: an empty query returns an
empty frame; otherwise the query is lowercased and used as the
Series.str.contains pattern over the 8 designated text columns. -/
def filtered_data (query : String) (aquarium_data : List AnimalRecord) :
    Except FilterError (List AnimalRecord) :=
  if query = "" then .ok []
  else
    match parseRegex (pyLower query.toList) with
    | none => .error .invalidRegex
    | some r => .ok (aquarium_data.filter (rowMask r))

/-- Modelled from the spec (section 4.1): a cell matches when the
lowercased query is a literal substring of the lowercased value; a missing
value never matches. -/
def specCellMatch (q : List Char) (field : Option String) : Bool :=
  match field with
  | none => false
  | some v => substrOf q (pyLower v.toList)

/-- Modelled from the spec (section 4.1): a row matches when any of the 8
designated fields matches the query as a literal substring. -/
def specRowMatch (q : List Char) (a : AnimalRecord) : Bool :=
  specCellMatch q a.name ||
  specCellMatch q a.scientific_name ||
  specCellMatch q a.diet ||
  specCellMatch q a.habitat ||
  specCellMatch q a.range ||
  specCellMatch q a.physical_characteristics ||
  specCellMatch q a.fun_fact ||
  specCellMatch q a.conservation_status

/-- Modelled from the spec (sections 4.1 and 8): the filter the
specification describes, with lowercased literal substring matching. -/
def spec_filtered_data (query : String) (aquarium_data : List AnimalRecord) :
    List AnimalRecord :=
  if query = "" then []
  else aquarium_data.filter (specRowMatch (pyLower query.toList))

theorem cellContains_lit (q : List Char) (field : Option String) :
    cellContains (litRegex q) field = specCellMatch q field := by
  cases field <;> simp [cellContains, specCellMatch, reSearch_lit]

theorem rowMask_lit (q : List Char) (a : AnimalRecord) :
    rowMask (litRegex q) a = specRowMatch q a := by
  simp [rowMask, specRowMatch, cellContains_lit]

/-- Concrete row reused by counterexamples and witnesses. -/
def sharkRow : AnimalRecord :=
  { name := some "Shark", scientific_name := some "Selachimorpha",
    diet := some "Carnivore", habitat := some "Ocean", range := some "Global",
    physical_characteristics := some "Cartilaginous skeleton",
    fun_fact := some "Sharks predate trees",
    conservation_status := some "Vulnerable",
    image_url := some "", url := some "#" }

/-! ### Featured animals (landing page) -/

/-- The fixed list of landing-page animal names from both apps. -/
def featured_animal_names : List String :=
  ["Sea Otter", "Beluga Whale", "Penguin", "Seahorse",
   "Sea Turtle", "Octopus", "Jellyfish", "Shark"]

/-- Model of the pandas isin mask on the name column: a missing name is in
no list. -/
def nameIsIn (names : List String) (a : AnimalRecord) : Bool :=
  match a.name with
  | none => false
  | some n => names.contains n

/-- The featured_animals_df computation of both apps: the rows whose name
is in the fixed list, replaced by the first 8 rows when fewer than 8 rows
match. -/
def featured_animals_df (aquarium_data : List AnimalRecord) : List AnimalRecord :=
  let f := aquarium_data.filter (nameIsIn featured_animal_names)
  if f.length < 8 then aquarium_data.take 8 else f

/-! ### Button identifier derivation (sanitize_id) -/

/-- Membership in the Python character class of lowercase and uppercase
ASCII letters and digits, the class sanitize_id keeps. -/
def isAsciiAlphanum (c : Char) : Bool :=
  (65 ≤ c.toNat && c.toNat ≤ 90) || (97 ≤ c.toNat && c.toNat ≤ 122) ||
  (48 ≤ c.toNat && c.toNat ≤ 57)

/-- Collapse every run of consecutive underscores to a single one, the
second substitution of sanitize_id. -/
def collapseUnd : List Char → List Char
  | [] => []
  | c :: rest =>
    match rest with
    | [] => [c]
    | d :: _ =>
      if c = '_' && d = '_' then collapseUnd rest
      else c :: collapseUnd rest

/-- Remove leading and trailing underscores, the final strip of
sanitize_id. -/
def stripUnd (l : List Char) : List Char :=
  ((l.dropWhile (· == '_')).reverse.dropWhile (· == '_')).reverse

/-- The sanitize_id helper of the motherduck app: every character outside
the ASCII alphanumeric class becomes an underscore, runs of underscores
collapse, and leading/trailing underscores are stripped. -/
def sanitize_id (name : String) : String :=
  String.mk (stripUnd (collapseUnd (name.toList.map
    (fun c => if isAsciiAlphanum c then c else '_'))))

/-- The love-button identifier generated for an animal in search_results. -/
def love_button_id (name : String) : String :=
  "love_" ++ sanitize_id name

/-- The nope-button identifier generated for an animal in search_results. -/
def nope_button_id (name : String) : String :=
  "nope_" ++ sanitize_id name

/-! ### Dataset loading and its fallback -/

/-- Model of pd.read_csv at a path: a missing file raises
FileNotFoundError, a present file yields its rows. -/
def pd_read_csv (file : Option (List AnimalRecord)) :
    Except String (List AnimalRecord) :=
  match file with
  | none => .error "FileNotFoundError"
  | some rows => .ok rows

/-- The module-level load of src/python/app.py (line 8): pd.read_csv with
no exception handler, so a missing file propagates the error and startup
fails. -/
def python_app_aquarium_data (file : Option (List AnimalRecord)) :
    Except String (List AnimalRecord) :=
  pd_read_csv file

/-- The hard-coded 3-row fallback dataset of the motherduck app
(lines 159-170). -/
def fallback_aquarium_data : List AnimalRecord :=
  [{ name := some "Sample Fish", scientific_name := some "Fishus sampleus",
     diet := some "Omnivore", habitat := some "Ocean", range := some "Global",
     physical_characteristics := some "Colorful",
     fun_fact := some "Very colorful", conservation_status := some "Stable",
     image_url := some "", url := some "#" },
   { name := some "Sample Shark", scientific_name := some "Sharkus sampleus",
     diet := some "Carnivore", habitat := some "Deep Sea",
     range := some "Pacific", physical_characteristics := some "Large teeth",
     fun_fact := some "Apex predator",
     conservation_status := some "Vulnerable",
     image_url := some "", url := some "#" },
   { name := some "Sample Turtle", scientific_name := some "Turtleus sampleus",
     diet := some "Herbivore", habitat := some "Coastal",
     range := some "Atlantic", physical_characteristics := some "Hard shell",
     fun_fact := some "Long lived", conservation_status := some "Endangered",
     image_url := some "", url := some "#" }]

/-- The dataset load of the motherduck app (lines 153-171): read_csv inside
try/except FileNotFoundError, substituting the 3-row fallback on a missing
file. -/
def motherduck_aquarium_data (file : Option (List AnimalRecord)) :
    List AnimalRecord :=
  match pd_read_csv file with
  | .ok rows => rows
  | .error _ => fallback_aquarium_data

/-! ### Claim C1: the search filter versus literal substring matching -/

/-- C1 counterexample: on the one-row dataset [sharkRow] and the query
consisting of a single dot, the engine returns the row (pandas interprets
the query as the regex wildcard) although the dot is not a substring of
any field value, so the filter does not return exactly the rows with a
substring match, contradicting the claim for queries containing characters
such as the dot. -/
theorem c1_counterexample :
    filtered_data "." [sharkRow] = Except.ok [sharkRow] ∧
    spec_filtered_data "." [sharkRow] = [] ∧
    filtered_data "." [sharkRow] ≠ Except.ok (spec_filtered_data "." [sharkRow]) := by
  have hcode : filtered_data "." [sharkRow] = Except.ok [sharkRow] := by rfl
  have hspec : spec_filtered_data "." [sharkRow] = [] := by rfl
  refine ⟨hcode, hspec, ?_⟩
  rw [hcode, hspec]
  intro h
  simp at h

/-- C1 (amended): for every non-empty query none of whose characters is a
regex metacharacter, the engine returns exactly the rows of the dataset
for which the lowercased query is a substring of the lowercased value of
at least one of the 8 designated text fields, missing values matching no
query; queries containing regex metacharacters are instead interpreted as
regular expressions (invalid ones raise). -/
theorem c1_filter_eq_substring_filter (q : String) (D : List AnimalRecord)
    (hq : q ≠ "") (hlit : ∀ c ∈ q.toList, isMeta c = false) :
    filtered_data q D = Except.ok (spec_filtered_data q D) := by
  unfold filtered_data spec_filtered_data
  rw [if_neg hq, if_neg hq,
    parseRegex_lit (pyLower q.toList) (pyLower_lit q.toList hlit)]
  dsimp only
  have : D.filter (rowMask (litRegex (pyLower q.toList))) =
      D.filter (specRowMatch (pyLower q.toList)) :=
    List.filter_congr (fun a _ => rowMask_lit (pyLower q.toList) a)
  rw [this]

/-- C1 witness: the amended theorem applied to the query shark and the
one-row dataset. -/
theorem c1_witness :
    ("shark" : String) ≠ "" ∧ (∀ c ∈ ("shark" : String).toList, isMeta c = false) ∧
    filtered_data "shark" [sharkRow] =
      Except.ok (spec_filtered_data "shark" [sharkRow]) :=
  ⟨by decide, by decide,
    c1_filter_eq_substring_filter "shark" [sharkRow] (by decide) (by decide)⟩

/-! ### Claim C2: the empty query -/

/-- C2: filtering any dataset by the empty query returns the empty result
set, and in particular not the dataset itself when it is non-empty. -/
theorem c2_empty_query_returns_empty (D : List AnimalRecord) :
    filtered_data "" D = Except.ok [] ∧
    (D ≠ [] → filtered_data "" D ≠ Except.ok D) := by
  refine ⟨by simp [filtered_data], ?_⟩
  intro hD hEq
  simp only [filtered_data, if_pos rfl] at hEq
  exact hD (Except.ok.injEq _ _ ▸ hEq).symm

/-- C2 witness: the empty query on the non-empty one-row dataset. -/
theorem c2_witness :
    ([sharkRow] : List AnimalRecord) ≠ [] ∧
    filtered_data "" [sharkRow] ≠ Except.ok [sharkRow] :=
  ⟨by decide, (c2_empty_query_returns_empty [sharkRow]).2 (by decide)⟩

/-! ### Claim C6: dataset loading when the CSV file is absent -/

/-- C6 counterexample: in src/python/app.py the dataset load has no
exception handler, so with the aquarium CSV absent the loader fails with
FileNotFoundError instead of substituting the fallback dataset. -/
theorem c6_counterexample :
    python_app_aquarium_data none = Except.error "FileNotFoundError" := by
  rfl

/-- C6 (amended): in the motherduck app, a missing aquarium CSV does not
fail the loader: it substitutes the fixed 3-row fallback sample dataset,
while a present file loads its rows unchanged; the plain python app has no
such fallback and fails on a missing file. -/
theorem c6_motherduck_fallback :
    motherduck_aquarium_data none = fallback_aquarium_data ∧
    fallback_aquarium_data.length = 3 ∧
    ∀ rows, motherduck_aquarium_data (some rows) = rows := by
  refine ⟨rfl, rfl, fun rows => rfl⟩

/-! ### Claim C9: sanitize_id collisions -/

/-- C9: sanitize_id is not injective on animal names: two distinct names
differing only in the non-alphanumeric separator between the same words
receive the same identifier, so the love (and nope) rating controls of two
distinct animals can collide on the same input ID. -/
theorem c9_sanitize_id_collision :
    sanitize_id "Sea Otter" = sanitize_id "Sea-Otter" ∧
    ("Sea Otter" : String) ≠ "Sea-Otter" ∧
    love_button_id "Sea Otter" = love_button_id "Sea-Otter" ∧
    nope_button_id "Sea Otter" = nope_button_id "Sea-Otter" := by
  refine ⟨by decide, by decide, by decide, by decide⟩

/-! ### Claim C10: the featured-animals selection -/

/-- C10: the featured set equals the rows whose name is in the fixed
8-name list whenever at least 8 such rows exist, and otherwise the first 8
rows of the dataset in dataset order. -/
theorem c10_featured_selection (D : List AnimalRecord) :
    (8 ≤ (D.filter (nameIsIn featured_animal_names)).length →
      featured_animals_df D = D.filter (nameIsIn featured_animal_names)) ∧
    ((D.filter (nameIsIn featured_animal_names)).length < 8 →
      featured_animals_df D = D.take 8) := by
  unfold featured_animals_df
  constructor
  · intro h
    rw [if_neg (by omega)]
  · intro h
    rw [if_pos h]

/-- C10 witness: the 3-row fallback dataset has fewer than 8 featured
names, so the first 8 (here all 3) rows are featured. -/
theorem c10_witness :
    (fallback_aquarium_data.filter (nameIsIn featured_animal_names)).length < 8 ∧
    featured_animals_df fallback_aquarium_data = fallback_aquarium_data.take 8 :=
  ⟨by decide, (c10_featured_selection fallback_aquarium_data).2 (by decide)⟩

/-! ### The ratings store

The ratings table is modelled as a list of rows in insertion order.  A
value of none models a database whose ratings table is unreachable or
absent, the models failure mode: any INSERT or SELECT against it raises,
which the source converts to a False return (save) or a None summary. -/

/-- One row of the ratings table (the generated id and default timestamp
carry no information the claims use and are omitted). -/
structure RatingEvent where
  session_id : String
  animal_name : String
  rating : String
deriving Repr, DecidableEq

/-- The ratings database state. -/
abbrev RatingsDb := Option (List RatingEvent)

/-- The rating value of the love button. -/
def loveRating : String := "Literally in love"

/-- The rating value of the nope button. -/
def nopeRating : String := "Not my type"

/-- save_rating_to_duckdb: INSERT one row and report True, or report False
when the database raises. -/
def save_rating_to_duckdb (db : RatingsDb) (animal_name rating session_id : String) :
    RatingsDb × Bool :=
  match db with
  | none => (none, false)
  | some evs => (some (evs ++ [⟨session_id, animal_name, rating⟩]), true)

/-- The number of rows of the table matching one (animal_name, rating)
pair: the COUNT the summary queries group by. -/
def countFor (evs : List RatingEvent) (animal rating : String) : Nat :=
  (evs.filter (fun e => e.animal_name == animal && e.rating == rating)).length

/-- The grouped aggregation of one summary query before ordering and
truncation: one (animal_name, count) pair per distinct animal having at
least one row with the given rating value. -/
def groupCounts (evs : List RatingEvent) (rating : String) : List (String × Nat) :=
  (((evs.filter (fun e => e.rating == rating)).map (·.animal_name)).dedup).map
    (fun a => (a, countFor evs a rating))

/-- The descending-count order of the summary queries (ORDER BY n DESC). -/
def cntGE (p q : String × Nat) : Prop :=
  q.2 ≤ p.2

instance : DecidableRel cntGE :=
  fun p q => Nat.decLe q.2 p.2

instance : IsTotal (String × Nat) cntGE :=
  ⟨fun a b => Nat.le_total b.2 a.2⟩

instance : IsTrans (String × Nat) cntGE :=
  ⟨fun _ _ _ hab hbc => Nat.le_trans hbc hab⟩

/-- ORDER BY n DESC, with ties resolved by a stable insertion sort (the
source leaves tie order to the database). -/
def sortByCountDesc (l : List (String × Nat)) : List (String × Nat) :=
  l.insertionSort cntGE

/-- One summary query: group, order by count descending, LIMIT 10. -/
def topTen (evs : List RatingEvent) (rating : String) : List (String × Nat) :=
  (sortByCountDesc (groupCounts evs rating)).take 10

/-- get_ratings_summary: None when the table is unreachable/absent or
empty, otherwise the love and nope top-10 lists. -/
def get_ratings_summary (db : RatingsDb) :
    Option (List (String × Nat) × List (String × Nat)) :=
  match db with
  | none => none
  | some evs =>
    if evs.length = 0 then none
    else some (topTen evs loveRating, topTen evs nopeRating)

/-- The count a summary result reports for one (animal_name, rating) pair:
the n listed next to the animal in the list for that rating value, none
when the pair is not listed (not in the top 10, not rated, or the summary
is the no-data sentinel). -/
def summaryCount (summary : Option (List (String × Nat) × List (String × Nat)))
    (animal rating : String) : Option Nat :=
  match summary with
  | none => none
  | some (love, nope) =>
    if rating = loveRating then (love.find? (fun p => p.1 == animal)).map (·.2)
    else if rating = nopeRating then (nope.find? (fun p => p.1 == animal)).map (·.2)
    else none

/-! ### Table initialization (C8) -/

/-- The schema-level state initialize_ratings_table manipulates: whether
the ratings table exists (and its rows) and whether the secondary index
exists. -/
structure DuckState where
  table : Option (List RatingEvent)
  hasIndex : Bool
deriving Repr, DecidableEq

/-- initialize_ratings_table: CREATE TABLE IF NOT EXISTS followed by
CREATE INDEX IF NOT EXISTS, returning True (no error path is reachable in
the model, matching the source where both statements are conditional). -/
def initialize_ratings_table (s : DuckState) : DuckState × Bool :=
  let s1 : DuckState :=
    match s.table with
    | none => { table := some [], hasIndex := s.hasIndex }
    | some evs => { table := some evs, hasIndex := s.hasIndex }
  (⟨s1.table, true⟩, true)

/-! ### save_rating with its CSV fallback (C4) and the observer (C5) -/

/-- The header line pandas writes on the first fallback write. -/
def csvHeader : List String :=
  ["timestamp", "session_id", "animal_name", "rating"]

/-- The fallback file state: none when ratings_backup.csv does not exist,
some rows when it holds the given lines (each line a list of fields). -/
abbrev BackupFile := Option (List (List String))

/-- save_rating: try the database first; on failure append the event as a
CSV line, creating the file with a header when it does not yet exist. -/
def save_rating (db : RatingsDb) (file : BackupFile)
    (animal_name rating session_id ts : String) : RatingsDb × BackupFile :=
  let (db2, duckdb_success) := save_rating_to_duckdb db animal_name rating session_id
  if duckdb_success then (db2, file)
  else
    let row := [ts, session_id, animal_name, rating]
    match file with
    | none => (db2, some [csvHeader, row])
    | some rows => (db2, some (rows ++ [row]))

/-- One click on a rating button, as the observer of
create_rating_observer sees it: the animal, the rating value and key the
button carries, the action-button value (0 until first clicked), and the
wall-clock timestamp a fallback write would record. -/
structure Click where
  animal_name : String
  rating_type : String
  rating_key : String
  button_value : Nat
  ts : String
deriving Repr, DecidableEq

/-- The per-session server state the observers manipulate: the shared
database and fallback file, the in-memory rated_animals map, and the
notifications shown so far (as (rating_key, animal_name) pairs). -/
structure ServerState where
  db : RatingsDb
  backup_file : BackupFile
  rated_animals : List (String × String)
  notices : List (String × String)
deriving Repr, DecidableEq

/-- The rating_handler body of create_rating_observer: a click with a
positive button value on an animal not yet in rated_animals saves the
rating, marks the animal rated, and shows a notification; any other click
is a no-op. -/
def rating_handler (session_id : String) (st : ServerState) (c : Click) :
    ServerState :=
  if 0 < c.button_value then
    if (st.rated_animals.lookup c.animal_name).isNone then
      let (db2, file2) :=
        save_rating st.db st.backup_file c.animal_name c.rating_type session_id c.ts
      { db := db2, backup_file := file2,
        rated_animals := st.rated_animals ++ [(c.animal_name, c.rating_key)],
        notices := st.notices ++ [(c.rating_key, c.animal_name)] }
    else st
  else st

/-- Run a sequence of clicks through the handler. -/
def runClicks (session_id : String) (st : ServerState) : List Click → ServerState
  | [] => st
  | c :: cs => runClicks session_id (rating_handler session_id st c) cs

/-- The server state at session start: rated_animals empty, no
notifications, database and fallback file as found. -/
def initServerState (db : RatingsDb) (file : BackupFile) : ServerState :=
  { db := db, backup_file := file, rated_animals := [], notices := [] }

/-- The rating section search_results renders on an animal card: the two
action buttons while the animal is unrated, the acknowledgment once it is
rated. -/
inductive CardSection where
  | buttons (love_id nope_id : String)
  | thanks (rating_key : String)
deriving Repr, DecidableEq

/-- The card rating section as a function of the rated_animals map. -/
def card_rating_section (rated_animals : List (String × String))
    (name : String) : CardSection :=
  match rated_animals.lookup name with
  | some k => .thanks k
  | none => .buttons (love_button_id name) (nope_button_id name)

/-- The number of rating events recorded for an animal over a session: one
per save_rating call the handler makes, observed through the notices it
shows (the handler notifies exactly when it saves). -/
def savesFor (st : ServerState) (animal : String) : Nat :=
  (st.notices.filter (fun p => p.2 == animal)).length

/-! ### Claim C8: idempotent table initialization -/

/-- C8: initialize_ratings_table is idempotent: a second call returns the
same state and the same success flag as the first, never errors, preserves
existing rows, creates the table exactly when absent, and ensures the
index. -/
theorem c8_initialize_idempotent (s : DuckState) :
    initialize_ratings_table (initialize_ratings_table s).1 =
      initialize_ratings_table s ∧
    (initialize_ratings_table s).2 = true ∧
    (∀ evs, s.table = some evs →
      (initialize_ratings_table s).1.table = some evs) ∧
    (s.table = none → (initialize_ratings_table s).1.table = some []) ∧
    (initialize_ratings_table s).1.hasIndex = true := by
  rcases s with ⟨tb, ix⟩
  cases tb <;> simp [initialize_ratings_table]

/-- C8 witness: initializing twice from an empty database with no table
and no index equals initializing once, and the table is created. -/
theorem c8_witness :
    initialize_ratings_table (initialize_ratings_table ⟨none, false⟩).1 =
      initialize_ratings_table ⟨none, false⟩ ∧
    (initialize_ratings_table (⟨none, false⟩ : DuckState)).1.table = some [] :=
  ⟨(c8_initialize_idempotent ⟨none, false⟩).1,
   (c8_initialize_idempotent ⟨none, false⟩).2.2.2.1 rfl⟩

/-! ### Claim C4: the CSV fallback on database failure -/

/-- C4: when the database write fails, save_rating appends exactly one new
line with the 4 fields in order (timestamp, session_id, animal_name,
rating), writing the header only when the file does not yet exist; and the
observer shows the success notification whatever the database state, so
the fallback stays invisible to the user. -/
theorem c4_fallback_append (file : BackupFile) (animal rating session ts : String) :
    (save_rating_to_duckdb none animal rating session).2 = false ∧
    (file = none →
      save_rating none file animal rating session ts =
        (none, some [csvHeader, [ts, session, animal, rating]])) ∧
    (∀ rows, file = some rows →
      save_rating none file animal rating session ts =
        (none, some (rows ++ [[ts, session, animal, rating]]))) ∧
    (∀ st : ServerState, ∀ c : Click, 0 < c.button_value →
      st.rated_animals.lookup c.animal_name = none →
      (rating_handler session st c).notices =
        st.notices ++ [(c.rating_key, c.animal_name)]) := by
  refine ⟨rfl, ?_, ?_, ?_⟩
  · rintro rfl; rfl
  · rintro rows rfl; rfl
  · intro st c hb hl
    unfold rating_handler
    rw [if_pos hb, hl]
    rcases hsv : save_rating st.db st.backup_file c.animal_name c.rating_type
      session c.ts with ⟨db2, file2⟩
    simp [hsv]

/-- C4 witness: a failed write with no pre-existing fallback file creates
the file with the header and the single data line. -/
theorem c4_witness :
    save_rating none none "Shark" loveRating "s1" "t0" =
      (none, some [csvHeader, ["t0", "s1", "Shark", loveRating]]) :=
  (c4_fallback_append none "Shark" loveRating "s1" "t0").2.1 rfl

/-! ### Claim C5: at most one rating per session and animal -/

theorem lookup_append_some {β : Type} (a : String) (l l2 : List (String × β))
    (k : β) (h : List.lookup a l = some k) :
    List.lookup a (l ++ l2) = some k := by
  induction l with
  | nil => simp [List.lookup] at h
  | cons p l ih =>
    rcases p with ⟨b, kb⟩
    simp only [List.cons_append, List.lookup] at h ⊢
    cases hab : (a == b) with
    | true => rw [hab] at h; simpa using h
    | false => rw [hab] at h; simp only at h ⊢; exact ih h

theorem lookup_append_none {β : Type} (a : String) (l l2 : List (String × β))
    (h : List.lookup a l = none) :
    List.lookup a (l ++ l2) = List.lookup a l2 := by
  induction l with
  | nil => simp
  | cons p l ih =>
    rcases p with ⟨b, kb⟩
    simp only [List.cons_append, List.lookup] at h ⊢
    cases hab : (a == b) with
    | true => rw [hab] at h; simp at h
    | false => rw [hab] at h; simp only at h ⊢; exact ih h

theorem lookup_append_single_ne {β : Type} (a b : String) (k : β)
    (l : List (String × β)) (h : a ≠ b) :
    List.lookup a (l ++ [(b, k)]) = List.lookup a l := by
  cases hl : List.lookup a l with
  | some kb => exact lookup_append_some a l [(b, k)] kb hl
  | none =>
    rw [lookup_append_none a l [(b, k)] hl]
    simp [List.lookup, beq_false_of_ne h]

theorem lookup_append_single_self {β : Type} (a : String) (k : β)
    (l : List (String × β)) (h : List.lookup a l = none) :
    List.lookup a (l ++ [(a, k)]) = some k := by
  rw [lookup_append_none a l [(a, k)] h]
  simp [List.lookup]

/-- The number of rows of the ratings table recorded for one session and
animal. -/
def countSess (evs : List RatingEvent) (session animal : String) : Nat :=
  (evs.filter (fun e => e.session_id == session && e.animal_name == animal)).length

/-- Session invariant: an unrated animal has no recorded save, and no
animal ever has more than one. -/
def RatedInv (A : String) (st : ServerState) : Prop :=
  (st.rated_animals.lookup A = none → savesFor st A = 0) ∧ savesFor st A ≤ 1

theorem savesFor_handler (session A : String) (st : ServerState) (c : Click)
    (h : RatedInv A st) : RatedInv A (rating_handler session st c) := by
  obtain ⟨h1, h2⟩ := h
  unfold rating_handler
  by_cases hb : 0 < c.button_value
  · rw [if_pos hb]
    cases hl : st.rated_animals.lookup c.animal_name with
    | some k => simpa [hl] using ⟨h1, h2⟩
    | none =>
      simp only [Option.isNone_none, if_true]
      rcases hsv : save_rating st.db st.backup_file c.animal_name c.rating_type
        session c.ts with ⟨db2, file2⟩
      dsimp only
      by_cases hA : c.animal_name = A
      · subst hA
        have h0 : savesFor st c.animal_name = 0 := h1 hl
        constructor
        · intro hcontra
          rw [lookup_append_single_self _ _ _ hl] at hcontra
          cases hcontra
        · unfold savesFor at h0 ⊢
          simp [List.filter_append, h0]
      · have hne : (c.animal_name == A) = false := beq_false_of_ne hA
        constructor
        · intro hnone
          rw [lookup_append_single_ne A c.animal_name _ _ (fun he => hA he.symm)]
            at hnone
          unfold savesFor at h1 ⊢
          simpa [List.filter_append, hne] using h1 hnone
        · unfold savesFor at h2 ⊢
          simp [List.filter_append, hne]
          exact h2
  · rw [if_neg hb]; exact ⟨h1, h2⟩

theorem savesFor_runClicks (session A : String) (clicks : List Click) :
    ∀ st : ServerState, RatedInv A st →
      RatedInv A (runClicks session st clicks) := by
  induction clicks with
  | nil => intro st h; exact h
  | cons c cs ih =>
    intro st h
    exact ih _ (savesFor_handler session A st c h)

/-- Database synchronisation invariant: with a reachable database, the
rows recorded for (session, A) exceed the initial ones by exactly the
saves the session handlers made for A. -/
def DbSyncInv (session A : String) (n0 : Nat) (st : ServerState) : Prop :=
  ∃ evs, st.db = some evs ∧ countSess evs session A = n0 + savesFor st A

theorem dbsync_handler (session A : String) (n0 : Nat) (st : ServerState)
    (c : Click) (h : DbSyncInv session A n0 st) :
    DbSyncInv session A n0 (rating_handler session st c) := by
  obtain ⟨evs, hdb, hcount⟩ := h
  unfold rating_handler
  by_cases hb : 0 < c.button_value
  · rw [if_pos hb]
    cases hl : st.rated_animals.lookup c.animal_name with
    | some k => simpa [hl] using ⟨evs, hdb, hcount⟩
    | none =>
      simp only [Option.isNone_none, if_true]
      have hsv : save_rating st.db st.backup_file c.animal_name c.rating_type
          session c.ts =
          (some (evs ++ [⟨session, c.animal_name, c.rating_type⟩]),
            st.backup_file) := by
        rw [hdb]; rfl
      rw [hsv]
      dsimp only
      refine ⟨evs ++ [⟨session, c.animal_name, c.rating_type⟩], rfl, ?_⟩
      unfold countSess savesFor at hcount ⊢
      by_cases hA : c.animal_name = A
      · subst hA
        simp [List.filter_append, hcount]
        omega
      · have hne : (c.animal_name == A) = false := beq_false_of_ne hA
        simp [List.filter_append, hne]
        exact hcount
  · rw [if_neg hb]; exact ⟨evs, hdb, hcount⟩

theorem dbsync_runClicks (session A : String) (n0 : Nat) (clicks : List Click) :
    ∀ st : ServerState, DbSyncInv session A n0 st →
      DbSyncInv session A n0 (runClicks session st clicks) := by
  induction clicks with
  | nil => intro st h; exact h
  | cons c cs ih =>
    intro st h
    exact ih _ (dbsync_handler session A n0 st c h)

/-- C5: over any sequence of button clicks in one session, at most one
rating is saved per animal; a click on an already-rated animal leaves the
state unchanged; a rated animal never becomes unrated or changes its
rating; its card renders the acknowledgment instead of the buttons; and
with a reachable database the rows recorded for (session, animal) grow by
exactly the number of saves, hence by at most one. -/
theorem c5_once_per_session (session A : String) (db : RatingsDb)
    (file : BackupFile) (clicks : List Click) :
    savesFor (runClicks session (initServerState db file) clicks) A ≤ 1 ∧
    (∀ st : ServerState, ∀ c : Click,
      (st.rated_animals.lookup c.animal_name).isSome →
      rating_handler session st c = st) ∧
    (∀ st : ServerState, ∀ c : Click, ∀ k, st.rated_animals.lookup A = some k →
      (rating_handler session st c).rated_animals.lookup A = some k) ∧
    (∀ k, (runClicks session (initServerState db file) clicks).rated_animals.lookup A
        = some k →
      card_rating_section
        (runClicks session (initServerState db file) clicks).rated_animals A =
        .thanks k) ∧
    (∀ evs0, db = some evs0 →
      ∃ evs1, (runClicks session (initServerState db file) clicks).db = some evs1 ∧
        countSess evs1 session A = countSess evs0 session A +
          savesFor (runClicks session (initServerState db file) clicks) A) := by
  refine ⟨?_, ?_, ?_, ?_, ?_⟩
  · exact (savesFor_runClicks session A clicks (initServerState db file)
      ⟨fun _ => rfl, by simp [savesFor, initServerState]⟩).2
  · intro st c h
    unfold rating_handler
    rcases hk : st.rated_animals.lookup c.animal_name with _ | k
    · rw [hk] at h; simp at h
    · simp [hk]
  · intro st c k hk
    unfold rating_handler
    by_cases hb : 0 < c.button_value
    · rw [if_pos hb]
      cases hl : st.rated_animals.lookup c.animal_name with
      | some k2 => simp [hl, hk]
      | none =>
        simp only [Option.isNone_none, if_true]
        rcases hsv : save_rating st.db st.backup_file c.animal_name c.rating_type
          session c.ts with ⟨db2, file2⟩
        have hne : A ≠ c.animal_name := by
          intro he
          rw [he, hl] at hk
          cases hk
        rw [lookup_append_single_ne A c.animal_name _ _ hne]
        exact hk
    · rw [if_neg hb]; exact hk
  · intro k hk
    unfold card_rating_section
    rw [hk]
  · intro evs0 hdb
    have hinit : DbSyncInv session A (countSess evs0 session A)
        (initServerState db file) := by
      refine ⟨evs0, ?_, ?_⟩
      · simp [initServerState, hdb]
      · simp [savesFor, initServerState]
    exact dbsync_runClicks session A (countSess evs0 session A) clicks
      (initServerState db file) hinit

/-- Click sequence used by the C5 witness: a love click on Shark followed
by a nope click on the same animal. -/
def demoClicks : List Click :=
  [⟨"Shark", loveRating, "love", 1, "t0"⟩, ⟨"Shark", nopeRating, "nope", 2, "t1"⟩]

/-- C5 witness: after a love click and a second click on the same animal,
exactly at most one save is recorded and the card shows the love
acknowledgment. -/
theorem c5_witness :
    savesFor (runClicks "s1" (initServerState (some []) none) demoClicks) "Shark" ≤ 1 ∧
    card_rating_section
      (runClicks "s1" (initServerState (some []) none) demoClicks).rated_animals
      "Shark" = CardSection.thanks "love" :=
  ⟨(c5_once_per_session "s1" "Shark" (some []) none demoClicks).1,
   (c5_once_per_session "s1" "Shark" (some []) none demoClicks).2.2.2.1 "love"
     (by decide)⟩

/-! ### Lemmas about the summary aggregation -/

theorem mem_groupCounts {evs : List RatingEvent} {v : String}
    {p : String × Nat} (h : p ∈ groupCounts evs v) :
    p.2 = countFor evs p.1 v ∧ 0 < countFor evs p.1 v := by
  unfold groupCounts at h
  rw [List.mem_map] at h
  obtain ⟨a, ha, rfl⟩ := h
  refine ⟨rfl, ?_⟩
  rw [List.mem_dedup, List.mem_map] at ha
  obtain ⟨e, he, rfl⟩ := ha
  rw [List.mem_filter] at he
  obtain ⟨hev, hr⟩ := he
  unfold countFor
  have hmem : e ∈ evs.filter
      (fun x => x.animal_name == e.animal_name && x.rating == v) := by
    rw [List.mem_filter]
    refine ⟨hev, ?_⟩
    simp only [Bool.and_eq_true, beq_self_eq_true, true_and]
    exact hr
  exact List.length_pos_of_mem hmem

theorem groupCounts_mem_of_pos {evs : List RatingEvent} {v a : String}
    (h : 0 < countFor evs a v) :
    (a, countFor evs a v) ∈ groupCounts evs v := by
  unfold groupCounts
  rw [List.mem_map]
  refine ⟨a, ?_, rfl⟩
  rw [List.mem_dedup, List.mem_map]
  unfold countFor at h
  obtain ⟨e, he⟩ := List.exists_mem_of_length_pos h
  rw [List.mem_filter] at he
  obtain ⟨hev, hcond⟩ := he
  simp only [Bool.and_eq_true, beq_iff_eq] at hcond
  refine ⟨e, ?_, hcond.1⟩
  rw [List.mem_filter]
  exact ⟨hev, by simp [hcond.2]⟩

theorem groupCounts_keys_nodup (evs : List RatingEvent) (v : String) :
    ((groupCounts evs v).map Prod.fst).Nodup := by
  unfold groupCounts
  rw [List.map_map]
  have hid : (Prod.fst ∘ fun a => (a, countFor evs a v)) = id := rfl
  rw [hid, List.map_id]
  exact List.nodup_dedup _

theorem mem_topTen {evs : List RatingEvent} {v : String} {p : String × Nat}
    (h : p ∈ topTen evs v) : p ∈ groupCounts evs v := by
  unfold topTen sortByCountDesc at h
  exact (List.mem_insertionSort cntGE).1 (List.take_subset _ _ h)

theorem topTen_sorted (evs : List RatingEvent) (v : String) :
    List.Sorted cntGE (topTen evs v) := by
  unfold topTen sortByCountDesc
  exact List.Pairwise.sublist (List.take_sublist _ _)
    (List.sorted_insertionSort cntGE _)

theorem topTen_keys_nodup (evs : List RatingEvent) (v : String) :
    ((topTen evs v).map Prod.fst).Nodup := by
  unfold topTen
  rw [List.map_take]
  apply List.Nodup.sublist (List.take_sublist _ _)
  have hperm : List.Perm ((sortByCountDesc (groupCounts evs v)).map Prod.fst)
      ((groupCounts evs v).map Prod.fst) :=
    (List.perm_insertionSort cntGE _).map _
  rw [hperm.nodup_iff]
  exact groupCounts_keys_nodup evs v

theorem topTen_length_le (evs : List RatingEvent) (v : String) :
    (topTen evs v).length ≤ 10 := by
  unfold topTen
  exact List.length_take_le _ _

theorem topTen_complete {evs : List RatingEvent} {v a : String}
    (hpos : 0 < countFor evs a v)
    (hnot : a ∉ (topTen evs v).map Prod.fst) :
    (topTen evs v).length = 10 ∧ ∀ p ∈ topTen evs v, countFor evs a v ≤ p.2 := by
  have hsort : List.Sorted cntGE (sortByCountDesc (groupCounts evs v)) := by
    unfold sortByCountDesc
    exact List.sorted_insertionSort cntGE _
  have hmem : (a, countFor evs a v) ∈ sortByCountDesc (groupCounts evs v) := by
    unfold sortByCountDesc
    rw [List.mem_insertionSort]
    exact groupCounts_mem_of_pos hpos
  set l := sortByCountDesc (groupCounts evs v) with hldef
  have hsplit : l.take 10 ++ l.drop 10 = l := List.take_append_drop 10 l
  have hpw : List.Pairwise cntGE (l.take 10 ++ l.drop 10) := by
    rw [hsplit]; exact hsort
  have hcross := (List.pairwise_append.mp hpw).2.2
  have htt : topTen evs v = l.take 10 := by
    unfold topTen
    rw [hldef]
  have hdrop : (a, countFor evs a v) ∈ l.drop 10 := by
    rcases List.mem_append.mp (by rw [hsplit]; exact hmem) with h | h
    · exact absurd (by rw [htt]; exact List.mem_map_of_mem Prod.fst h) hnot
    · exact h
  constructor
  · have hne : l.drop 10 ≠ [] := List.ne_nil_of_mem hdrop
    have hlen : 10 < l.length := by
      by_contra hle
      push_neg at hle
      rw [List.drop_eq_nil_of_le hle] at hne
      exact hne rfl
    rw [htt, List.length_take]
    omega
  · intro p hp
    exact hcross p (by rw [htt] at hp; exact hp) _ hdrop

/-! ### Claim C7: the shape of the ratings summary -/

/-- C7: get_ratings_summary returns the no-data sentinel exactly when the
ratings table is absent or empty; otherwise each of the two lists holds at
most 10 pairs, grouped per animal (no duplicate animal, the count being
exactly the number of events for that animal and rating value, and only
rated animals listed), ordered by count descending; and any rated animal
missing from a list is missing only to truncation: the list then has
exactly 10 entries, all with counts at least as large as the missing
animal. -/
theorem c7_summary_shape (db : RatingsDb) :
    (get_ratings_summary db = none ↔ db = none ∨ db = some []) ∧
    (∀ evs lv np, db = some evs →
      get_ratings_summary db = some (lv, np) →
      lv.length ≤ 10 ∧ np.length ≤ 10 ∧
      List.Sorted cntGE lv ∧ List.Sorted cntGE np ∧
      (lv.map Prod.fst).Nodup ∧ (np.map Prod.fst).Nodup ∧
      (∀ p ∈ lv, p.2 = countFor evs p.1 loveRating ∧
        0 < countFor evs p.1 loveRating) ∧
      (∀ p ∈ np, p.2 = countFor evs p.1 nopeRating ∧
        0 < countFor evs p.1 nopeRating) ∧
      (∀ a, 0 < countFor evs a loveRating → a ∉ lv.map Prod.fst →
        lv.length = 10 ∧ ∀ p ∈ lv, countFor evs a loveRating ≤ p.2) ∧
      (∀ a, 0 < countFor evs a nopeRating → a ∉ np.map Prod.fst →
        np.length = 10 ∧ ∀ p ∈ np, countFor evs a nopeRating ≤ p.2)) := by
  constructor
  · cases db with
    | none => simp [get_ratings_summary]
    | some evs =>
      by_cases h0 : evs.length = 0
      · rw [List.length_eq_zero] at h0
        subst h0
        simp [get_ratings_summary]
      · have h0' : evs ≠ [] := by
          intro h
          subst h
          exact h0 rfl
        simp [get_ratings_summary, h0, h0']
  · intro evs lv np hdb hsum
    subst hdb
    unfold get_ratings_summary at hsum
    dsimp only at hsum
    by_cases h0 : evs.length = 0
    · rw [if_pos h0] at hsum
      cases hsum
    · rw [if_neg h0] at hsum
      simp only [Option.some.injEq, Prod.mk.injEq] at hsum
      obtain ⟨rfl, rfl⟩ := hsum
      refine ⟨topTen_length_le evs loveRating, topTen_length_le evs nopeRating,
        topTen_sorted evs loveRating, topTen_sorted evs nopeRating,
        topTen_keys_nodup evs loveRating, topTen_keys_nodup evs nopeRating,
        ?_, ?_, ?_, ?_⟩
      · exact fun p hp => mem_groupCounts (mem_topTen hp)
      · exact fun p hp => mem_groupCounts (mem_topTen hp)
      · exact fun a hpos hnot => topTen_complete hpos hnot
      · exact fun a hpos hnot => topTen_complete hpos hnot

/-- Events used by the C7 and C3 witnesses. -/
def demoEvents : List RatingEvent :=
  [⟨"s1", "Shark", loveRating⟩, ⟨"s2", "Shark", loveRating⟩,
   ⟨"s1", "Octopus", nopeRating⟩]

/-- C7 witness: on a concrete 3-event table the summary is not the
sentinel and the love list is the sorted singleton (Shark, 2). -/
theorem c7_witness :
    List.Sorted cntGE [("Shark", 2)] ∧
    ([("Shark", 2)] : List (String × Nat)).length ≤ 10 ∧
    get_ratings_summary (some demoEvents) ≠ none := by
  have h := (c7_summary_shape (some demoEvents)).2 demoEvents
    [("Shark", 2)] [("Octopus", 1)] rfl (by decide)
  refine ⟨h.2.2.1, h.1, ?_⟩
  intro hnone
  rcases (c7_summary_shape (some demoEvents)).1.mp hnone with h' | h' <;>
    simp [demoEvents] at h'

/-! ### Claim C3: a saved rating and the next summary -/

/-- Ten distractor animals, each with three love votes, so that the love
top-10 is full before animal A appears in it. -/
def cexAnimals : List String :=
  ["B0", "B1", "B2", "B3", "B4", "B5", "B6", "B7", "B8", "B9"]

/-- A ratings table in which animal A holds one love vote and ten other
animals hold three love votes each. -/
def cexEvents : List RatingEvent :=
  (cexAnimals.map
    (fun b => List.replicate 3 (⟨"s", b, loveRating⟩ : RatingEvent))).flatten ++
  [⟨"s", "A", loveRating⟩]

/-- C3 counterexample: saving a love vote for A succeeds, yet neither the
previous nor the next summary lists a count for (A, love) at all — A stays
outside the top 10 — so the count reported by summarize does not increment
from the previous call, contradicting the claim for this ratings state. -/
theorem c3_counterexample :
    (save_rating_to_duckdb (some cexEvents) "A" loveRating "s2").2 = true ∧
    summaryCount (get_ratings_summary (some cexEvents)) "A" loveRating = none ∧
    summaryCount (get_ratings_summary
        (save_rating_to_duckdb (some cexEvents) "A" loveRating "s2").1)
      "A" loveRating = none := by
  refine ⟨rfl, by decide, by decide⟩

/-- C3 (amended): after a successful save of (session, animal, rating),
the count for that (animal, rating) pair in the grouped aggregation
underlying summarize (of which summarize returns the 10 largest entries)
is exactly one greater than before, every other pair keeps its count, and
whenever the next summarize call does list the pair, the count it reports
is exactly the previous aggregate count plus one. -/
theorem c3_roundtrip_count (evs : List RatingEvent) (a v s : String)
    (hsucc : (save_rating_to_duckdb (some evs) a v s).2 = true) :
    ∃ evs', (save_rating_to_duckdb (some evs) a v s).1 = some evs' ∧
      countFor evs' a v = countFor evs a v + 1 ∧
      (∀ b w, b ≠ a ∨ w ≠ v → countFor evs' b w = countFor evs b w) ∧
      (∀ n, summaryCount (get_ratings_summary (some evs')) a v = some n →
        n = countFor evs a v + 1) := by
  have hinc : countFor (evs ++ [⟨s, a, v⟩]) a v = countFor evs a v + 1 := by
    unfold countFor
    simp [List.filter_append]
  refine ⟨evs ++ [(⟨s, a, v⟩ : RatingEvent)], by rfl, hinc, ?_, ?_⟩
  · intro b w hbw
    unfold countFor
    simp only [List.filter_append, List.length_append]
    have hzero : (List.filter
        (fun e => e.animal_name == b && e.rating == w)
        [(⟨s, a, v⟩ : RatingEvent)]).length = 0 := by
      rcases hbw with h | h
      · simp [beq_false_of_ne (Ne.symm h)]
      · simp [beq_false_of_ne (Ne.symm h)]
    rw [hzero]
    omega
  · intro n hn
    have hne : (evs ++ [(⟨s, a, v⟩ : RatingEvent)]).length ≠ 0 := by
      simp
    unfold get_ratings_summary at hn
    dsimp only at hn
    rw [if_neg hne] at hn
    unfold summaryCount at hn
    dsimp only at hn
    by_cases hv : v = loveRating
    · rw [if_pos hv] at hn
      rw [Option.map_eq_some'] at hn
      obtain ⟨p, hfind, hp2⟩ := hn
      have hkey : p.1 = a := by
        have := List.find?_some hfind
        simpa using this
      have hmem := mem_groupCounts (mem_topTen (List.mem_of_find?_eq_some hfind))
      rw [← hp2, hmem.1, hkey, ← hv, hinc]
    · by_cases hw : v = nopeRating
      · rw [if_neg hv, if_pos hw] at hn
        rw [Option.map_eq_some'] at hn
        obtain ⟨p, hfind, hp2⟩ := hn
        have hkey : p.1 = a := by
          have := List.find?_some hfind
          simpa using this
        have hmem := mem_groupCounts (mem_topTen (List.mem_of_find?_eq_some hfind))
        rw [← hp2, hmem.1, hkey, ← hw, hinc]
      · rw [if_neg hv, if_neg hw] at hn
        cases hn

/-- C3 witness: the amended theorem applied to a concrete 3-event table
and a love vote for Seahorse. -/
theorem c3_witness :
    ∃ evs', (save_rating_to_duckdb (some demoEvents) "Seahorse" loveRating "s3").1
        = some evs' ∧
      countFor evs' "Seahorse" loveRating =
        countFor demoEvents "Seahorse" loveRating + 1 ∧
      (∀ b w, b ≠ "Seahorse" ∨ w ≠ loveRating →
        countFor evs' b w = countFor demoEvents b w) ∧
      (∀ n, summaryCount (get_ratings_summary (some evs')) "Seahorse" loveRating
          = some n →
        n = countFor demoEvents "Seahorse" loveRating + 1) :=
  c3_roundtrip_count demoEvents "Seahorse" loveRating "s3" rfl

end Aquarium
